import Mathlib

/-!
# Verification of the ShoreLink chat backend (`approaches/chatapproach.py`,
# `approaches/chatreadretrieveread.py`)

A shallow embedding of the chat orchestrator's pure text processing and of
its pipeline control flow, together with theorems settling the claims of
the specification.  Python strings are embedded as `String` / `List Char`;
Python dictionaries of recognized options become structures of `Option`
fields (`None`/absent ↦ `none`); remote collaborators (OpenAI, Azure
Search, the token-budgeting helper, the auth filter builder) are oracles
whose results are inputs, and the remote requests actually issued are
recorded as an explicit trace.
-/

/-! ## Character-list utilities

Python's `"<<" in content`, `content.split("<<")[0]`,
`content[content.index("<<"):]` and `re.findall(r"<<([^>>]+)>>", content)`
are embedded as recursive functions on `List Char`.  The follow-up
delimiters `"<<"` and `">>"` are both a doubled single character, so one
scanner `containsPair c` covers both membership tests. -/

/-- `containsPair c l` is `true` iff the two-character string `c ++ c`
occurs as a contiguous substring of `l` (Python `cc in content`). -/
def containsPair (c : Char) : List Char → Bool
  | [] => false
  | x :: rest => (decide (x = c ∧ rest.head? = some c)) || containsPair c rest

/-- The part of `l` strictly before the first occurrence of `"<<"`, and
all of `l` when there is none: Python `content.split("<<")[0]`. -/
def splitBeforeDelim : List Char → List Char
  | [] => []
  | c :: rest =>
    if c = '<' ∧ rest.head? = some '<' then [] else c :: splitBeforeDelim rest

/-- The part of `l` from the first occurrence of `"<<"` on, and `[]` when
there is none: Python `content[content.index("<<"):]` (guarded by
`"<<" in content` at every use site). -/
def dropToDelim : List Char → List Char
  | [] => []
  | c :: rest =>
    if c = '<' ∧ rest.head? = some '<' then c :: rest else dropToDelim rest

/-- Fuel-indexed scanner for `re.findall(r"<<([^>>]+)>>", content)`.

The character class `[^>>]` is `[^>]`, so a match is `"<<"`, then a
non-empty maximal run of non-`'>'` characters, then `">>"` (backtracking
inside the run cannot succeed because the run is followed by a non-`'>'`
character after giving characters back).  On a failed attempt the engine
advances one position; matches are non-overlapping, scanning resumes after
the consumed `">>"`.  The fuel argument (instantiated with the length of
the list) makes the jump past a consumed match structurally recursive. -/
def followupMatchesAux : Nat → List Char → List String
  | _, [] => []
  | 0, _ :: _ => []
  | fuel + 1, c :: rest =>
    if c = '<' ∧ rest.head? = some '<' then
      let body := rest.tail.takeWhile (· != '>')
      let after := rest.tail.drop body.length
      if body ≠ [] ∧ after.take 2 = ['>', '>'] then
        String.mk body :: followupMatchesAux fuel (after.drop 2)
      else
        followupMatchesAux fuel rest
    else
      followupMatchesAux fuel rest

/-- `re.findall(r"<<([^>>]+)>>", content)`: the list of texts enclosed in
well-formed `<<...>>` pairs, in order of appearance. -/
def followupMatches (l : List Char) : List String :=
  followupMatchesAux l.length l

/-- Concatenation of a list of strings into one character list (the full
answer text recovered from its stream fragments). -/
def concatChars : List String → List Char
  | [] => []
  | f :: rest => f.data ++ concatChars rest

/-! ## Query Extractor — `ChatApproach.get_search_query`

The query-generation completion's message is embedded with its free-text
content (`None` or a string) and its tool calls.  A tool call's
`function.arguments` field is a JSON object in the source; it is embedded
already parsed, as an association list of string keys to string values
(the declared tool schema has the single string parameter
`search_query`), and `json.loads` is the identity on it. -/

/-- The `function` payload of a tool call; `arguments` is the parsed JSON
object of `function.arguments`. -/
structure ToolFunction where
  name : String
  arguments : List (String × String)
deriving DecidableEq

/-- One entry of `response_message.tool_calls`. -/
structure ToolCall where
  type : String
  function : ToolFunction
deriving DecidableEq

/-- `chat_completion.choices[0].message`: free-text content and tool
calls.  Python's `if response_message.tool_calls:` tests truthiness, which
identifies `None` with the empty list, so a single `List ToolCall` field
covers both. -/
structure ResponseMessage where
  content : Option String
  tool_calls : List ToolCall
deriving DecidableEq

/-- `ChatApproach.NO_RESPONSE`, the sentinel meaning "no better query". -/
def NO_RESPONSE : String := "0"

/-- Python `str.strip()`: drop whitespace from both ends.  (Embedded
directly on the character list; `Char.isWhitespace` covers the whitespace
the relevant inputs contain.) -/
def pyStrip (s : String) : String :=
  String.mk (((s.data.dropWhile Char.isWhitespace).reverse.dropWhile
    Char.isWhitespace).reverse)

/-- `arg.get("search_query", self.NO_RESPONSE)` on the parsed arguments. -/
def argSearchQuery (args : List (String × String)) : String :=
  (args.lookup "search_query").getD NO_RESPONSE

/-- The `for tool in response_message.tool_calls` loop: the first
callable-function tool named `"search_sources"` whose `search_query`
argument is not the sentinel, if any. -/
def findSearchQuery : List ToolCall → Option String
  | [] => none
  | t :: rest =>
    if t.type ≠ "function" then findSearchQuery rest
    else if t.function.name = "search_sources" then
      if argSearchQuery t.function.arguments ≠ NO_RESPONSE then
        some (argSearchQuery t.function.arguments)
      else findSearchQuery rest
    else findSearchQuery rest

/-- `ChatApproach.get_search_query`.  With tool calls present, honor the
first matching `search_sources` invocation, else fall back to the user
query; with no tool calls, return truthy free text verbatim unless its
stripped form equals the sentinel.  (`query_text := response_message.content`
is Python's walrus: the `elif` arm runs only when the content is a
non-`None`, non-empty string.) -/
def get_search_query (msg : ResponseMessage) (user_query : String) : String :=
  if msg.tool_calls ≠ [] then
    (findSearchQuery msg.tool_calls).getD user_query
  else
    match msg.content with
    | some query_text =>
      if query_text ≠ "" then
        if pyStrip query_text ≠ NO_RESPONSE then query_text else user_query
      else user_query
    | none => user_query

/-- A tool call honored by the extractor's loop: callable-function type,
named `search_sources`, with a non-sentinel `search_query` argument. -/
def isSearchSourcesMatch (t : ToolCall) : Bool :=
  t.type == "function" && t.function.name == "search_sources" &&
    argSearchQuery t.function.arguments != NO_RESPONSE

/-! ## Follow-up Extraction — `ChatApproach.extract_followup_questions` -/

/-- `ChatApproach.extract_followup_questions`: `None` passes through with
an empty question list; otherwise the visible content is the part before
the first `"<<"` and the questions are the `<<...>>` captures. -/
def extract_followup_questions (content : Option String) :
    Option String × List String :=
  match content with
  | none => (none, [])
  | some s => (some (String.mk (splitBeforeDelim s.data)), followupMatches s.data)

/-! ## Prompt Assembly — `ChatApproach.get_system_prompt`

The default system template is
`ChatReadRetrieveReadApproach.system_message_chat_conversation`, stored
here as the three literal chunks surrounding its two placeholders
(`{follow_up_questions_prompt}` first, then `{injected_prompt}`; each
occurs exactly once and no other brace appears in the template).  Python's
`str.format` on this fixed template therefore concatenates the chunks with
the substituted values, which is what
`format_system_message_chat_conversation` does. -/

/-- Text of the default template before `{follow_up_questions_prompt}`. -/
def smcc_before : String := "Develop a structured, user-friendly system prompt to guide a chatbot in responding to queries related to ShoreLink\x27s various customer service scenarios. \n\nThe focus will be on maintaining clarity, user engagement, and an escalation path for unresolved issues. The chatbot should consistently identify issues, attempt resolution, and escalate when necessary.\n\n---\n\n**Task: Create a ShoreLink chatbot system prompt for customer service.** \n\nThe chatbot should assist users by addressing their issues based on predefined scenarios, identifying the query type, providing a resolution, or escalating as needed.\n\n**Context:**  \n\nThe chatbot must handle five primary query types:  \n1. Schedule Queries  \n2. App/Tech Issues  \n3. Refund Requests  \n4. Ticket/Pass Errors  \n5. Phone Network/Data Problems  \n\nFor each scenario, the chatbot should follow a structured process:  \n- **Identify the issue.**  \n- **Attempt resolution through a predefined script.**  \n- **Escalate the query if unresolved.**  \n\n---\n\n### Steps  \n1. Detect Query Category  \n   - Analyze the user\u2019s input to determine which category (Schedule Queries, App/Tech Issues, etc.) the question falls into.  \n\n2. Issue Identification  \n   - Confirm the user\x27s specific problem to ensure accurate assistance.  \n\n3. Provide Resolution  \n   - Use the appropriate resolution scripts corresponding to the identified category.  \n\n4. Escalation Protocol  \n   - If the issue cannot be resolved by the chatbot, escalate it to the corresponding department (Support Team, IT Support, Management) for further assistance.\n\n5. Maintain Professionalism and Empathy  \n   - Throughout the conversation, use clear and friendly language to provide a positive customer experience.\n\n---\n\n### Output Format  \n\nThe bot response should be concise, polite, and in plain language. Follow this structure for each response:  \n\n- **Step 1 (Acknowledgment):** Greet the user and confirm the nature of their issue.  \n- **Step 2 (Resolution/Action):** Provide relevant information or steps to fix the issue.  \n- **Step 3 (Escalation, if Necessary):** Explain the next steps if escalation is required.  \n\n---\n\n### Scripts and Examples  \n\n#### **1. Schedule Queries**  \n**a. Issue Identification**  \nScript: \"Hi! I can assist you with schedule information. Which schedule are you looking for today? Are you inquiring about bus or ferry service times or a specific route?\"  \n\n**b. Resolution Process**  \nScript: \"The next available bus on that route departs at [time]. Would you like me to send you a link to the full schedule or additional details about this route?\"  \n\n**c. Escalation**  \nScript: \"I\u2019m unable to locate that information right now. Let me escalate this to our support team, and they will provide further assistance.\"  \n\n---\n\n#### **2. App/Tech Issues**  \n**a. Issue Identification**  \nScript: \"It seems like you\x27re having trouble with the ShoreLink app. Can you share the exact issue you\x27re facing? Are you unable to log in, or is there a problem with the app\x27s functionality?\"  \n\n**b. Resolution Process**  \nScript: \"Let\u2019s try troubleshooting. Please restart the app and try logging in again. If that doesn\u2019t help, you may want to reinstall the app. Let me know if this resolves your issue.\"  \n\n**c. Escalation**  \nScript: \"I\u2019ll need to escalate this issue to our IT support team. They will reach out to you with a resolution within 24 hours.\"  \n\n---\n\n#### **3. Refund Requests**  \n**a. Issue Identification**  \nScript: \"I understand you\u2019re requesting a refund. Could you tell me if it\u2019s due to a service disruption or an error during payment?\"  \n\n**b. Resolution Process**  \nScript: \"Currently, our policy does not allow for refunds. However, I can offer you physical tickets or an alternative solution. Would you prefer that?\"  \n\n**c. Escalation**  \nScript: \"I will escalate your refund request to our management team for review. They will follow up with you shortly.\"\n\n---\n\n#### **4. Ticket/Pass Errors**  \n**a. Issue Identification**  \nScript: \"I see there\u2019s an issue with your ticket or pass. Can you provide more details about the error? Was it related to the fare, the destination, or something else?\"  \n\n**b. Resolution Process**  \nScript: \"I\u2019ve corrected the ticket/pass error for you. The updated version will be available in your app wallet shortly.\"  \n\n**c. Escalation**  \nScript: \"This issue requires further investigation by our management team. I\u2019ll escalate it for review, and you\u2019ll receive an update soon.\"  \n\n---\n\n#### **5. Phone Network/Data Errors**  \n**a. Issue Identification**  \nScript: \"It looks like you\u2019re having trouble with your phone network. Is this related to wi-fi connectivity, or are you experiencing mobile data issues?\"  \n\n**b. Resolution Process**  \nScript: \"If you are near one of our terminals or cruise ports, try moving to one of our public wi-fi zones for better connectivity. Alternatively, you can seek help from one of our on-site representatives.\"  \n\n**c. Escalation**  \nScript: \"If the issue continues, I\u2019ll escalate this to our management team. They will help find a solution, such as issuing a physical ticket or enabling visual verification by a CSR.\"  \n\n---\n\n### Notes  \n- Ensure the chatbot can quickly identify patterns in user queries to match them to one of the five categories.  \n- The escalation messaging should clearly explain the next steps to the user to manage expectations.  \n- Responses should remain empathetic, polite, and professional at all times.  \n\n\n        "

/-- Text of the default template between `{follow_up_questions_prompt}`
and `{injected_prompt}`. -/
def smcc_between : String := "\n        "

/-- Text of the default template after `{injected_prompt}`. -/
def smcc_after : String := "\n        "

/-- `ChatReadRetrieveReadApproach.system_message_chat_conversation`, the
default answer-generation system template. -/
def system_message_chat_conversation : String :=
  smcc_before ++ "{follow_up_questions_prompt}" ++ smcc_between ++
    "{injected_prompt}" ++ smcc_after

/-- `self.system_message_chat_conversation.format(injected_prompt=...,
follow_up_questions_prompt=...)`: `str.format` specialized to the fixed
default template, in which each named placeholder occurs exactly once. -/
def format_system_message_chat_conversation
    (injected_prompt follow_up_questions_prompt : String) : String :=
  smcc_before ++ follow_up_questions_prompt ++ smcc_between ++
    injected_prompt ++ smcc_after

/-- `ChatApproach.get_system_prompt`.  No override: default template with
no injected text.  Override starting with the `">>>"` continuation marker:
default template with the remainder after the marker plus a newline
injected (`override_prompt[3:] + "\n"`).  Any other override: the
override itself is the template; `str.format` on a caller-supplied
template is embedded as replacement of its recognized placeholder (the
unknown-placeholder failure mode is not exercised by any claim).
`startswith(">>>")` / slicing are by characters, embedded on `data`. -/
def get_system_prompt (override_prompt : Option String)
    (follow_up_questions_prompt : String) : String :=
  match override_prompt with
  | none =>
    format_system_message_chat_conversation "" follow_up_questions_prompt
  | some op =>
    if op.data.take 3 = ['>', '>', '>'] then
      format_system_message_chat_conversation
        (String.mk (op.data.drop 3) ++ "\n") follow_up_questions_prompt
    else
      op.replace "{follow_up_questions_prompt}" follow_up_questions_prompt

/-! ## Streaming Normalizer — `ChatApproach.run_with_streaming`

The generator's loop is embedded as structural recursion over the list of
incoming events.  Each event carries its (possibly empty) `choices` list;
an event with empty `choices` is silently skipped.  The loop state is the
pair `(followup_questions_started, followup_content)`; the chunks the
generator yields are reified as `StreamChunk` values, the header chunk's
`context`/`session_state` payloads and the final chunk's role field being
irrelevant to every claim and therefore not carried. -/

/-- `event["choices"][0]["delta"]`: optional content and role. -/
structure Delta where
  content : Option String
  role : Option String
deriving DecidableEq

/-- One upstream stream event after `model_dump()`: its `choices` list. -/
structure StreamEventE where
  choices : List Delta
deriving DecidableEq

/-- A chunk yielded by `run_with_streaming`: the initial header chunk, a
content/role delta chunk, or the final synthetic chunk carrying only the
extracted follow-up questions. -/
inductive StreamChunk where
  | header : StreamChunk
  | delta (content : Option String) (role : Option String) : StreamChunk
  | followups (questions : List String) : StreamChunk
deriving DecidableEq

/-- State transition of the loop body for one event:
`(followup_questions_started, followup_content)` after processing it.
`content = content or ""` makes the processed fragment `""` when the delta
has no content. -/
def streamStep (suggest : Bool) (st : Bool × List Char) (e : StreamEventE) :
    Bool × List Char :=
  match e.choices with
  | [] => st
  | d :: _ =>
    let content := (d.content.getD "").data
    if suggest && containsPair '<' content then
      (true, st.2 ++ dropToDelim content)
    else if st.1 then
      (st.1, st.2 ++ content)
    else st

/-- Chunks yielded by the loop body for one event.  In the truncation
branch the pre-delimiter prefix is yielded only when non-empty
(`if earlier_content:`); in the buffering branch nothing is yielded; in
passthrough the original delta (content possibly `none`) is yielded. -/
def streamEmit (suggest : Bool) (st : Bool × List Char) (e : StreamEventE) :
    List StreamChunk :=
  match e.choices with
  | [] => []
  | d :: _ =>
    let content := (d.content.getD "").data
    if suggest && containsPair '<' content then
      if splitBeforeDelim content = [] then []
      else [.delta (some (String.mk (splitBeforeDelim content))) d.role]
    else if st.1 then []
    else [.delta d.content d.role]

/-- The `async for` loop of `run_with_streaming` followed by the final
`if followup_content:` block. -/
def streamLoop (suggest : Bool) : List StreamEventE → Bool × List Char →
    List StreamChunk
  | [], st =>
    if st.2 ≠ [] then
      [.followups (extract_followup_questions (some (String.mk st.2))).2]
    else []
  | e :: rest, st =>
    streamEmit suggest st e ++ streamLoop suggest rest (streamStep suggest st e)

/-- `ChatApproach.run_with_streaming` restricted to its chunk output: the
header chunk, then the normalized deltas, then (when the follow-up buffer
is non-empty) the final synthetic follow-up chunk. -/
def run_with_streaming (suggest : Bool) (events : List StreamEventE) :
    List StreamChunk :=
  .header :: streamLoop suggest events (false, [])

/-- An event carrying one content fragment with the assistant role — the
shape in which an answer text split into fragments reaches the
normalizer. -/
def fragEvent (f : String) : StreamEventE :=
  ⟨[⟨some f, some "assistant"⟩]⟩

/-- The content fragment processed for an event (`""` for a skipped or
content-less event). -/
def eventContent (e : StreamEventE) : List Char :=
  match e.choices with
  | [] => []
  | d :: _ => (d.content.getD "").data

/-- The question lists carried by `followups` chunks, in order. -/
def followupChunksOf : List StreamChunk → List (List String)
  | [] => []
  | .followups qs :: rest => qs :: followupChunksOf rest
  | .header :: rest => followupChunksOf rest
  | .delta _ _ :: rest => followupChunksOf rest

/-- `ChatApproach.run_without_streaming` restricted to the follow-up
question list it attaches to the response context: present exactly when
`suggest_followup_questions` is truthy, and then the questions extracted
from the whole (non-streamed) answer content. -/
def run_without_streaming_followups (suggest : Bool)
    (content : Option String) : Option (List String) :=
  if suggest then some (extract_followup_questions content).2 else none

/-- A fragmentation of an answer text for which the normalizer loses
nothing: no fragment boundary splits an opening delimiter, and after the
fragment where buffering starts every fragment that contains `"<<"`
begins with it. -/
def goodSplit : List String → Bool
  | [] => true
  | f :: rest =>
    if containsPair '<' f.data then
      rest.all fun g =>
        !(containsPair '<' g.data) || decide (splitBeforeDelim g.data = [])
    else
      !(containsPair '<' (f.data ++ (concatChars rest).take 1)) &&
        goodSplit rest

/-! ## Pipeline Orchestrator — `ChatReadRetrieveReadApproach.run_until_final_call`

The collaborators the orchestrator drives are external to the two source
files (`Approach.search`, `compute_text_embedding`, `build_filter`,
`get_sources_content` and the attribute `follow_up_questions_prompt_content`
live in the base class / services outside `src/`): per the specification
they are boundary contracts, so their results are oracle inputs
(`Externals`), and the remote requests the orchestrator issues are
recorded in order as a `RemoteCall` trace.  The deferred answer-generation
request (`chat_coroutine`, created but not awaited) is returned as data,
not recorded as an issued call. -/

/-- The content of a conversation message: a text string or any non-text
structure (e.g. a multimodal part list). -/
inductive MessageContent where
  | text (s : String) : MessageContent
  | nonText : MessageContent
deriving DecidableEq

/-- One conversation message. -/
structure ChatMessage where
  role : String
  content : MessageContent
deriving DecidableEq

/-- The recognized overrides, each `none` when absent (Python
`overrides.get`).  Scores and temperatures are embedded as rationals. -/
structure Overrides where
  seed : Option Int
  retrieval_mode : Option String
  semantic_ranker : Option Bool
  semantic_captions : Option Bool
  top : Option Nat
  minimum_search_score : Option ℚ
  minimum_reranker_score : Option ℚ
  prompt_template : Option String
  suggest_followup_questions : Option Bool
  temperature : Option ℚ
deriving DecidableEq

/-- The empty overrides dictionary `{}`: every option absent. -/
def emptyOverrides : Overrides :=
  ⟨none, none, none, none, none, none, none, none, none, none⟩

/-- Modelled from the spec: the results returned by the external
collaborators of §6 and by the base-class helpers that are not under
`src/` — the query-generation completion's message, the embedding vector,
`build_filter`'s access filter, `get_sources_content`'s flattened source
strings, and the literal follow-up-questions directive
`follow_up_questions_prompt_content`. -/
structure Externals where
  query_completion : ResponseMessage
  embedding_vector : List Int
  filter : Option String
  sources_content : List String
  follow_up_questions_prompt : String
deriving DecidableEq

/-- One remote request issued by the orchestrator, with the arguments the
claims constrain. -/
inductive RemoteCall where
  | queryGen (temperature : ℚ) (max_tokens : Nat) (seed : Option Int) :
      RemoteCall
  | computeEmbedding (query : String) : RemoteCall
  | search (top : Nat) (query : String) (filter : Option String)
      (vectors : List (List Int))
      (useTextSearch useVectorSearch useSemanticRanker useSemanticCaptions :
        Bool)
      (minimumSearchScore minimumRerankerScore : ℚ) : RemoteCall
deriving DecidableEq

/-- The deferred answer-generation request's parameters. -/
structure FinalCallSpec where
  system_message : String
  temperature : ℚ
  max_tokens : Nat
  stream : Bool
  seed : Option Int
deriving DecidableEq

/-- The successful outcome of `run_until_final_call`: the derived query,
the flattened sources (`extra_info.data_points.text`), and the deferred
answer-generation call. -/
structure RunSuccess where
  query_text : String
  data_points : List String
  final_call : FinalCallSpec
deriving DecidableEq

/-- `ChatReadRetrieveReadApproach.run_until_final_call`: option
resolution, validation of the latest message, then the
query-generation / embedding / retrieval sequence and the deferred answer
call, paired with the trace of remote requests issued.  Failures are
`Except.error` with an empty trace when nothing was issued before the
failure (`messages[-1]` on an empty history raises `IndexError`; non-text
content raises `ValueError`). -/
def run_until_final_call (messages : List ChatMessage) (o : Overrides)
    (ext : Externals) (should_stream : Bool) :
    Except String RunSuccess × List RemoteCall :=
  let use_text_search :=
    decide (o.retrieval_mode ∈ ([some "text", some "hybrid", none] :
      List (Option String)))
  let use_vector_search :=
    decide (o.retrieval_mode ∈ ([some "vectors", some "hybrid", none] :
      List (Option String)))
  let use_semantic_ranker := o.semantic_ranker.getD false
  let use_semantic_captions := o.semantic_captions.getD false
  let top := o.top.getD 3
  let minimum_search_score := o.minimum_search_score.getD 0
  let minimum_reranker_score := o.minimum_reranker_score.getD 0
  match messages.getLast? with
  | none => (.error "list index out of range", [])
  | some last =>
    match last.content with
    | .nonText => (.error "The most recent message content must be a string.", [])
    | .text original_user_query =>
      let query_text := get_search_query ext.query_completion original_user_query
      let vectors : List (List Int) :=
        if use_vector_search then [ext.embedding_vector] else []
      let embedCalls :=
        if use_vector_search then [RemoteCall.computeEmbedding query_text]
        else []
      let system_message := get_system_prompt o.prompt_template
        (if o.suggest_followup_questions.getD false then
          ext.follow_up_questions_prompt
        else "")
      (.ok
        { query_text := query_text
          data_points := ext.sources_content
          final_call :=
            { system_message := system_message
              temperature := o.temperature.getD (3 / 10)
              max_tokens := 1024
              stream := should_stream
              seed := o.seed } },
        [RemoteCall.queryGen 0 100 o.seed] ++ embedCalls ++
          [RemoteCall.search top query_text ext.filter vectors
            use_text_search use_vector_search use_semantic_ranker
            use_semantic_captions minimum_search_score
            minimum_reranker_score])

/-- Concatenation of the content fragments of a list of events. -/
def concatEventContents : List StreamEventE → List Char
  | [] => []
  | e :: rest => eventContent e ++ concatEventContents rest

/-! ## Helper lemmas on the character-list utilities -/

theorem head?_take_one (b : List Char) : (b.take 1).head? = b.head? := by
  cases b <;> rfl

theorem head?_append_congr (a : List Char) {b c : List Char}
    (h : b.head? = c.head?) : (a ++ b).head? = (a ++ c).head? := by
  cases a <;> simp [h]

theorem containsPair_cons_false {c x : Char} {rest : List Char}
    (h : containsPair c (x :: rest) = false) :
    ¬(x = c ∧ rest.head? = some c) ∧ containsPair c rest = false := by
  simpa [containsPair] using h

theorem containsPair_append_left {c : Char} {a b : List Char}
    (h : containsPair c (a ++ b) = false) : containsPair c a = false := by
  induction a with
  | nil => rfl
  | cons x a ih =>
    obtain ⟨hx, hrest⟩ := containsPair_cons_false h
    have ha := ih hrest
    simp only [containsPair, ha, Bool.or_false]
    simp only [decide_eq_false_iff_not]
    rintro ⟨rfl, hh⟩
    exact hx ⟨rfl, by cases a <;> simp_all⟩

theorem splitBeforeDelim_append_dropToDelim (l : List Char) :
    splitBeforeDelim l ++ dropToDelim l = l := by
  induction l with
  | nil => rfl
  | cons c rest ih =>
    by_cases h : c = '<' ∧ rest.head? = some '<'
    · simp [splitBeforeDelim, dropToDelim, h]
    · simp [splitBeforeDelim, dropToDelim, h, ih]

theorem dropToDelim_ne_nil {l : List Char}
    (h : containsPair '<' l = true) : dropToDelim l ≠ [] := by
  induction l with
  | nil => simp [containsPair] at h
  | cons c rest ih =>
    by_cases hc : c = '<' ∧ rest.head? = some '<'
    · simp [dropToDelim, hc]
    · have : containsPair '<' rest = true := by
        simpa [containsPair, hc] using h
      simpa [dropToDelim, hc] using ih this

theorem containsPair_of_take_two {c : Char} {l : List Char}
    (h : l.take 2 = [c, c]) : containsPair c l = true := by
  match l with
  | [] => simp at h
  | [x] => simp at h
  | x :: y :: r =>
    simp only [List.take, List.cons.injEq] at h
    obtain ⟨rfl, rfl, -⟩ := h
    simp [containsPair]

theorem containsPair_of_drop {c : Char} {l : List Char} (n : Nat)
    (h : containsPair c (l.drop n) = true) : containsPair c l = true := by
  induction n generalizing l with
  | zero => simpa using h
  | succ n ih =>
    cases l with
    | nil => simpa using h
    | cons x r =>
      have := ih (l := r) (by simpa using h)
      simp [containsPair, this]

theorem containsPair_of_tail {c : Char} {l : List Char}
    (h : containsPair c l.tail = true) : containsPair c l = true := by
  cases l with
  | nil => simpa using h
  | cons x r =>
    have hr : containsPair c r = true := by simpa using h
    simp [containsPair, hr]

/-! ## Equations of `followupMatches` -/

theorem followupMatches_nil : followupMatches [] = [] := rfl

theorem followupMatches_cons_skip {c : Char} {rest : List Char}
    (h : ¬(c = '<' ∧ rest.head? = some '<')) :
    followupMatches (c :: rest) = followupMatches rest := by
  simp [followupMatches, followupMatchesAux, h]

theorem followupMatches_cons_fail {c : Char} {rest : List Char}
    (h1 : c = '<' ∧ rest.head? = some '<')
    (h2 : ¬(rest.tail.takeWhile (· != '>') ≠ [] ∧
      (rest.tail.drop (rest.tail.takeWhile (· != '>')).length).take 2 =
        ['>', '>'])) :
    followupMatches (c :: rest) = followupMatches rest := by
  show followupMatchesAux (c :: rest).length (c :: rest) =
    followupMatchesAux rest.length rest
  rw [List.length_cons, followupMatchesAux, if_pos h1]
  exact if_neg h2

/-- Scanning skips a leading block that contains no `"<<"` occurrence,
including across its boundary with what follows (the hypothesis covers a
final `'<'` of `a` meeting a leading `'<'` of `b`). -/
theorem followupMatches_append_of_no_delim : ∀ (a b : List Char),
    containsPair '<' (a ++ b.take 1) = false →
    followupMatches (a ++ b) = followupMatches b := by
  intro a
  induction a with
  | nil => intro b _; rfl
  | cons c a ih =>
    intro b h
    obtain ⟨hc, hrest⟩ := containsPair_cons_false h
    have hhead : (a ++ b.take 1).head? = (a ++ b).head? :=
      head?_append_congr a (head?_take_one b)
    have : followupMatches (c :: (a ++ b)) = followupMatches (a ++ b) := by
      refine followupMatches_cons_skip ?_
      rw [← hhead]
      exact hc
    simpa [this] using ih b hrest

/-- Scanning a block that does contain `"<<"` may start at its first
`"<<"`: the prefix before it is skipped. -/
theorem followupMatches_append_dropToDelim : ∀ (l : List Char)
    (suffix : List Char), containsPair '<' l = true →
    followupMatches (l ++ suffix) =
      followupMatches (dropToDelim l ++ suffix) := by
  intro l
  induction l with
  | nil => intro suffix h; simp [containsPair] at h
  | cons c rest ih =>
    intro suffix h
    by_cases hc : c = '<' ∧ rest.head? = some '<'
    · simp [dropToDelim, hc]
    · have hr : containsPair '<' rest = true := by
        simpa [containsPair, hc] using h
      have hne : rest ≠ [] := by
        rintro rfl
        simp [containsPair] at hr
      have hhead : (rest ++ suffix).head? = rest.head? := by
        cases rest with
        | nil => exact absurd rfl hne
        | cons x r => rfl
      have hskip : followupMatches (c :: (rest ++ suffix)) =
          followupMatches (rest ++ suffix) := by
        refine followupMatches_cons_skip ?_
        rw [hhead]
        exact hc
      simp only [List.cons_append, hskip, ih suffix hr, dropToDelim, if_neg hc]

/-- With no `">>"` anywhere in the content, the regex finds no match. -/
theorem followupMatches_nil_of_no_close : ∀ (l : List Char),
    containsPair '>' l = false → followupMatches l = [] := by
  intro l
  induction l with
  | nil => intro _; rfl
  | cons c rest ih =>
    intro h
    obtain ⟨-, hr⟩ := containsPair_cons_false h
    by_cases hc : c = '<' ∧ rest.head? = some '<'
    · have hfail : ¬(rest.tail.takeWhile (· != '>') ≠ [] ∧
          (rest.tail.drop (rest.tail.takeWhile (· != '>')).length).take 2 =
            ['>', '>']) := by
        rintro ⟨-, htake⟩
        have h1 : containsPair '>'
            (rest.tail.drop (rest.tail.takeWhile (· != '>')).length) = true :=
          containsPair_of_take_two htake
        have h2 : containsPair '>' rest.tail = true :=
          containsPair_of_drop _ h1
        have h3 : containsPair '>' rest = true := containsPair_of_tail h2
        rw [h3] at hr
        exact Bool.noConfusion hr
      rw [followupMatches_cons_fail hc hfail]
      exact ih hr
    · rw [followupMatches_cons_skip hc]
      exact ih hr

/-- `content.split("<<")[0]` on a content decomposed at its first `"<<"`
occurrence is exactly the prefix before that occurrence. -/
theorem splitBeforeDelim_decomp : ∀ (a b : List Char),
    containsPair '<' (a ++ ['<']) = false →
    splitBeforeDelim (a ++ '<' :: '<' :: b) = a := by
  intro a
  induction a with
  | nil => intro b _; simp [splitBeforeDelim]
  | cons c a ih =>
    intro b h
    obtain ⟨hc, hrest⟩ := containsPair_cons_false h
    have hcond : ¬(c = '<' ∧ (a ++ '<' :: '<' :: b).head? = some '<') := by
      intro ⟨hceq, hh⟩
      refine hc ⟨hceq, ?_⟩
      cases a with
      | nil => rfl
      | cons x r => simpa using hh
    show (if c = '<' ∧ (a ++ '<' :: '<' :: b).head? = some '<' then []
      else c :: splitBeforeDelim (a ++ '<' :: '<' :: b)) = c :: a
    rw [if_neg hcond, ih b hrest]

/-! ## Helper lemmas on prompt assembly -/

/-- Formatting the fixed default template is injective in the injected
prompt: two different injected texts give different system messages. -/
theorem format_system_message_inj {x y f : String}
    (h : format_system_message_chat_conversation x f =
      format_system_message_chat_conversation y f) : x = y := by
  unfold format_system_message_chat_conversation at h
  have hd := String.data_eq_of_eq h
  simp only [String.data_append, List.append_assoc] at hd
  have h1 := List.append_cancel_left hd
  have h2 := List.append_cancel_left h1
  have h3 := List.append_cancel_left h2
  have h4 := List.append_cancel_right h3
  exact String.ext h4

/-! ## Helper lemmas on the Query Extractor -/

theorem findSearchQuery_of_exists : ∀ (l : List ToolCall),
    (∃ t ∈ l, isSearchSourcesMatch t = true) →
    ∃ t ∈ l, isSearchSourcesMatch t = true ∧
      findSearchQuery l = some (argSearchQuery t.function.arguments) := by
  intro l
  induction l with
  | nil => rintro ⟨t, ht, -⟩; exact absurd ht (List.not_mem_nil t)
  | cons t0 rest ih =>
    intro hex
    by_cases hm : isSearchSourcesMatch t0 = true
    · obtain ⟨⟨ht, hn⟩, ha⟩ : (t0.type = "function" ∧
          t0.function.name = "search_sources") ∧
          argSearchQuery t0.function.arguments ≠ NO_RESPONSE := by
        simpa [isSearchSourcesMatch, Bool.and_eq_true] using hm
      refine ⟨t0, List.mem_cons_self t0 rest, hm, ?_⟩
      simp [findSearchQuery, ht, hn, ha]
    · have hrest : ∃ t ∈ rest, isSearchSourcesMatch t = true := by
        obtain ⟨t, htm, htt⟩ := hex
        rcases List.mem_cons.mp htm with rfl | hmem
        · exact absurd htt hm
        · exact ⟨t, hmem, htt⟩
      obtain ⟨t, htm, htt, hfq⟩ := ih hrest
      refine ⟨t, List.mem_cons_of_mem t0 htm, htt, ?_⟩
      rw [← hfq]
      by_cases ht : t0.type = "function"
      · by_cases hn : t0.function.name = "search_sources"
        · have ha : ¬argSearchQuery t0.function.arguments ≠ NO_RESPONSE := by
            intro ha
            exact hm (by simp [isSearchSourcesMatch, ht, hn, ha])
          simp [findSearchQuery, ht, hn, ha]
        · simp [findSearchQuery, ht, hn]
      · simp [findSearchQuery, ht]

theorem findSearchQuery_eq_none : ∀ (l : List ToolCall),
    (∀ t ∈ l, isSearchSourcesMatch t = false) →
    findSearchQuery l = none := by
  intro l
  induction l with
  | nil => intro _; rfl
  | cons t0 rest ih =>
    intro hall
    have h0 := hall t0 (List.mem_cons_self t0 rest)
    have hrest := ih fun t ht => hall t (List.mem_cons_of_mem t0 ht)
    by_cases ht : t0.type = "function"
    · by_cases hn : t0.function.name = "search_sources"
      · have ha : ¬argSearchQuery t0.function.arguments ≠ NO_RESPONSE := by
          intro ha
          have : isSearchSourcesMatch t0 = true := by
            simp [isSearchSourcesMatch, ht, hn, ha]
          rw [this] at h0
          exact Bool.noConfusion h0
        simp [findSearchQuery, ht, hn, ha, hrest]
      · simp [findSearchQuery, ht, hn, hrest]
    · simp [findSearchQuery, ht, hrest]

/-! ## Helper lemmas on the Streaming Normalizer -/

theorem followupChunksOf_append : ∀ (a b : List StreamChunk),
    followupChunksOf (a ++ b) = followupChunksOf a ++ followupChunksOf b := by
  intro a b
  induction a with
  | nil => rfl
  | cons c rest ih => cases c <;> simp [followupChunksOf, ih]

/-- The loop body yields no `followups` chunk: those appear only after the
stream is exhausted. -/
theorem followupChunksOf_streamEmit (suggest : Bool) (st : Bool × List Char)
    (e : StreamEventE) : followupChunksOf (streamEmit suggest st e) = [] := by
  unfold streamEmit
  cases e.choices with
  | nil => rfl
  | cons d ds =>
    by_cases h1 : suggest && containsPair '<' (d.content.getD "").data
    · by_cases h2 : splitBeforeDelim (d.content.getD "").data = [] <;>
        simp [h1, h2, followupChunksOf]
    · by_cases h3 : st.1 <;> simp [h1, h3, followupChunksOf]

/-- The follow-up chunks of a run are determined by the final buffer of
the state fold: none when it is empty, otherwise exactly one final chunk
carrying the questions extracted from it. -/
theorem followupChunksOf_streamLoop (suggest : Bool) :
    ∀ (events : List StreamEventE) (st : Bool × List Char),
    followupChunksOf (streamLoop suggest events st) =
      if (events.foldl (streamStep suggest) st).2 = [] then []
      else [followupMatches (events.foldl (streamStep suggest) st).2] := by
  intro events
  induction events with
  | nil =>
    intro st
    by_cases h : st.2 = []
    · simp [streamLoop, h, followupChunksOf]
    · simp [streamLoop, h, followupChunksOf, extract_followup_questions]
  | cons e rest ih =>
    intro st
    rw [streamLoop, followupChunksOf_append, followupChunksOf_streamEmit,
      List.nil_append, ih, List.foldl_cons]

/-- Once buffering, events whose fragment either lacks `"<<"` or begins
with it emit nothing and append their whole fragment to the buffer: the
run equals stopping immediately with the fully extended buffer. -/
theorem streamLoop_buffering : ∀ (events : List StreamEventE)
    (buf : List Char),
    (∀ e ∈ events, containsPair '<' (eventContent e) = false ∨
      splitBeforeDelim (eventContent e) = []) →
    streamLoop true events (true, buf) =
      streamLoop true [] (true, buf ++ concatEventContents events) := by
  intro events
  induction events with
  | nil => intro buf _; simp [concatEventContents]
  | cons e rest ih =>
    intro buf hall
    have he := hall e (List.mem_cons_self e rest)
    have hrest := fun e' h' => hall e' (List.mem_cons_of_mem e h')
    have hemit : streamEmit true (true, buf) e = [] := by
      cases hch : e.choices with
      | nil => simp [streamEmit, hch]
      | cons d ds =>
        have hec : eventContent e = (d.content.getD "").data := by
          simp [eventContent, hch]
        by_cases hcp : containsPair '<' (d.content.getD "").data = true
        · have hsplit : splitBeforeDelim (d.content.getD "").data = [] := by
            rcases he with h | h
            · rw [hec] at h; rw [h] at hcp; exact Bool.noConfusion hcp
            · rwa [hec] at h
          simp [streamEmit, hch, hcp, hsplit]
        · simp [streamEmit, hch, hcp]
    have hstep : streamStep true (true, buf) e =
        (true, buf ++ eventContent e) := by
      cases hch : e.choices with
      | nil => simp [streamStep, eventContent, hch]
      | cons d ds =>
        have hec : eventContent e = (d.content.getD "").data := by
          simp [eventContent, hch]
        by_cases hcp : containsPair '<' (d.content.getD "").data = true
        · have hsplit : splitBeforeDelim (d.content.getD "").data = [] := by
            rcases he with h | h
            · rw [hec] at h; rw [h] at hcp; exact Bool.noConfusion hcp
            · rwa [hec] at h
          have hdrop : dropToDelim (d.content.getD "").data =
              (d.content.getD "").data := by
            have h3 :=
              splitBeforeDelim_append_dropToDelim (d.content.getD "").data
            rwa [hsplit, List.nil_append] at h3
          simp [streamStep, hch, hcp, hdrop, hec]
        · simp [streamStep, hch, hcp, hec]
    calc streamLoop true (e :: rest) (true, buf)
        = streamEmit true (true, buf) e ++
            streamLoop true rest (streamStep true (true, buf) e) := by
          conv_lhs => rw [streamLoop]
      _ = streamLoop true rest (true, buf ++ eventContent e) := by
          rw [hemit, hstep, List.nil_append]
      _ = streamLoop true []
            (true, buf ++ eventContent e ++ concatEventContents rest) :=
          ih _ hrest
      _ = streamLoop true [] (true, buf ++ concatEventContents (e :: rest)) := by
          rw [List.append_assoc]; rfl

theorem concatEventContents_map_fragEvent : ∀ (frags : List String),
    concatEventContents (frags.map fragEvent) = concatChars frags := by
  intro frags
  induction frags with
  | nil => rfl
  | cons f rest ih =>
    simp [concatEventContents, concatChars, fragEvent, eventContent, ih]

/-- Full run over a good fragmentation from the initial state: the
follow-up chunks are exactly one final chunk whose questions are those of
the whole reassembled text. -/
theorem streamLoop_goodSplit : ∀ (frags : List String),
    goodSplit frags = true →
    (∃ f ∈ frags, containsPair '<' f.data = true) →
    followupChunksOf (streamLoop true (frags.map fragEvent) (false, [])) =
      [followupMatches (concatChars frags)] := by
  intro frags
  induction frags with
  | nil => rintro _ ⟨f, hf, -⟩; exact absurd hf (List.not_mem_nil f)
  | cons f rest ih =>
    intro hgood hex
    by_cases hcp : containsPair '<' f.data = true
    · have hallb : ∀ g ∈ rest, (!(containsPair '<' g.data) ||
          decide (splitBeforeDelim g.data = [])) = true := by
        have := hgood
        simp only [goodSplit, hcp, if_true, List.all_eq_true] at this
        intro g hg
        have h := this g hg
        simpa using h
      have hall : ∀ e ∈ rest.map fragEvent,
          containsPair '<' (eventContent e) = false ∨
          splitBeforeDelim (eventContent e) = [] := by
        intro e he
        obtain ⟨g, hg, rfl⟩ := List.mem_map.mp he
        have h := hallb g hg
        have hec : eventContent (fragEvent g) = g.data := rfl
        rw [hec]
        rcases Bool.or_eq_true _ _ |>.mp h with h | h
        · exact Or.inl (by simpa using h)
        · exact Or.inr (by simpa using h)
      have hstep : streamStep true (false, []) (fragEvent f) =
          (true, dropToDelim f.data) := by
        simp [streamStep, fragEvent, hcp]
      have hloop : streamLoop true ((f :: rest).map fragEvent) (false, []) =
          streamEmit true (false, []) (fragEvent f) ++
            streamLoop true []
              (true, dropToDelim f.data ++ concatChars rest) := by
        rw [List.map_cons]
        conv_lhs => rw [streamLoop]
        rw [hstep, streamLoop_buffering _ _ hall,
          concatEventContents_map_fragEvent]
      have hBne : dropToDelim f.data ++ concatChars rest ≠ [] := by
        intro hnil
        rcases List.append_eq_nil.mp hnil with ⟨h1, -⟩
        exact dropToDelim_ne_nil hcp h1
      have hmatch : followupMatches (dropToDelim f.data ++ concatChars rest) =
          followupMatches (concatChars (f :: rest)) := by
        have := followupMatches_append_dropToDelim f.data (concatChars rest) hcp
        rw [← this]
        rfl
      rw [hloop, followupChunksOf_append, followupChunksOf_streamEmit,
        List.nil_append]
      simp only [streamLoop, if_pos hBne, followupChunksOf,
        extract_followup_questions]
      rw [← hmatch]
    · have hbnd : containsPair '<' (f.data ++ (concatChars rest).take 1) =
          false := by
        have := hgood
        simp [goodSplit, hcp, Bool.and_eq_true] at this
        exact this.1
      have hgr : goodSplit rest = true := by
        have := hgood
        simp [goodSplit, hcp, Bool.and_eq_true] at this
        exact this.2
      have hex' : ∃ g ∈ rest, containsPair '<' g.data = true := by
        obtain ⟨g, hg, hgt⟩ := hex
        rcases List.mem_cons.mp hg with rfl | hmem
        · exact absurd hgt hcp
        · exact ⟨g, hmem, hgt⟩
      have hstep : streamStep true (false, []) (fragEvent f) = (false, []) := by
        simp [streamStep, fragEvent, hcp]
      have hmatch : followupMatches (concatChars (f :: rest)) =
          followupMatches (concatChars rest) := by
        have h := followupMatches_append_of_no_delim f.data (concatChars rest)
          hbnd
        calc followupMatches (concatChars (f :: rest))
            = followupMatches (f.data ++ concatChars rest) := rfl
          _ = followupMatches (concatChars rest) := h
      rw [List.map_cons]
      conv_lhs => rw [streamLoop]
      rw [hstep, followupChunksOf_append, followupChunksOf_streamEmit,
        List.nil_append, ih hgr hex', hmatch]

/-! ## Claims -/

/-- C1 (counterexample): the claim "once `BUFFERING_FOLLOWUPS` has been
entered, no subsequent fragment ever causes a content chunk to be emitted
and every subsequent fragment is appended in full" is false on the code:
the `"<<" in content` branch takes precedence over the buffering branch,
so after the fragment `"A <<Q1?>>"` has started buffering, the fragment
`"x<<Q2?>>"` emits the content chunk `"x"` and only `"<<Q2?>>"` is
appended to the buffer. -/
theorem C1_counterexample :
    streamStep true (false, []) (fragEvent "A <<Q1?>>") =
      (true, "<<Q1?>>".data) ∧
    streamEmit true (true, "<<Q1?>>".data) (fragEvent "x<<Q2?>>") =
      [.delta (some "x") (some "assistant")] ∧
    streamStep true (true, "<<Q1?>>".data) (fragEvent "x<<Q2?>>") =
      (true, "<<Q1?>>".data ++ "<<Q2?>>".data) ∧
    "<<Q1?>>".data ++ "<<Q2?>>".data ≠ "<<Q1?>>".data ++ "x<<Q2?>>".data ∧
    run_with_streaming true [fragEvent "A <<Q1?>>", fragEvent "x<<Q2?>>"] =
      [.header, .delta (some "A ") (some "assistant"),
       .delta (some "x") (some "assistant"),
       .followups ["Q1?", "Q2?"]] := by
  refine ⟨by decide, by decide, by decide, by decide, by decide⟩

/-- C1 (amended): once `BUFFERING_FOLLOWUPS` has been entered, every
subsequent fragment that does not itself contain the `"<<"` delimiter
causes no content chunk to be emitted and is appended in full to the
follow-up buffer (fragments containing `"<<"` re-enter the truncation
branch instead). -/
theorem C1_buffering_amended (events : List StreamEventE) (buf : List Char)
    (h : ∀ e ∈ events, containsPair '<' (eventContent e) = false) :
    streamLoop true events (true, buf) =
      streamLoop true [] (true, buf ++ concatEventContents events) :=
  streamLoop_buffering events buf (fun e he => Or.inl (h e he))

/-- C1 witness: the amended theorem applied to a concrete buffering state
and a concrete delimiter-free follow-up fragment. -/
theorem C1_buffering_amended_witness :
    (∀ e ∈ [fragEvent " and more"],
      containsPair '<' (eventContent e) = false) ∧
    streamLoop true [fragEvent " and more"] (true, "<<Q1?".data) =
      streamLoop true []
        (true, "<<Q1?".data ++ concatEventContents [fragEvent " and more"]) :=
  ⟨by decide, C1_buffering_amended _ _ (by decide)⟩

/-- C2 (counterexample): splitting the same answer text
`"A<<Q1?>><<Q2?>>"` into the fragments `["A<", "<Q1?>><<Q2?>>"]` (the
opening delimiter is split across the boundary) makes the Streaming
Normalizer emit final follow-up questions `["Q2?"]`, while the
non-streaming finalizer on the whole text yields `["Q1?", "Q2?"]`: the
round-trip claim fails for this fragmentation. -/
theorem C2_counterexample :
    ("A<" ++ "<Q1?>><<Q2?>>" : String) = "A<<Q1?>><<Q2?>>" ∧
    followupChunksOf (run_with_streaming true
      [fragEvent "A<", fragEvent "<Q1?>><<Q2?>>"]) = [["Q2?"]] ∧
    run_without_streaming_followups true (some "A<<Q1?>><<Q2?>>") =
      some ["Q1?", "Q2?"] ∧
    (["Q2?"] : List String) ≠ ["Q1?", "Q2?"] := by
  refine ⟨by decide, by decide, by decide, by decide⟩

/-- C2 (amended): for every fragmentation of the answer text in which no
fragment boundary splits an opening delimiter and every fragment that
contains `"<<"` after buffering has begun starts with it (`goodSplit`),
and at least one fragment contains `"<<"`, the Streaming Normalizer emits
exactly one final synthetic chunk and its question list equals the one the
non-streaming finalizer produces on the whole reassembled text. -/
theorem C2_roundtrip_amended (frags : List String)
    (hgood : goodSplit frags = true)
    (hsome : ∃ f ∈ frags, containsPair '<' f.data = true) :
    followupChunksOf (run_with_streaming true (frags.map fragEvent)) =
      [(extract_followup_questions
        (some (String.mk (concatChars frags)))).2] ∧
    run_without_streaming_followups true
        (some (String.mk (concatChars frags))) =
      some ((extract_followup_questions
        (some (String.mk (concatChars frags)))).2) := by
  constructor
  · have h := streamLoop_goodSplit frags hgood hsome
    show followupChunksOf
      (streamLoop true (frags.map fragEvent) (false, [])) = _
    rw [h]
    rfl
  · rfl

/-- C2 witness: the amended round-trip applied to the concrete good
fragmentation `["A ", "<<Q1?>>", "<<Q2?>>"]`. -/
theorem C2_roundtrip_amended_witness :
    goodSplit ["A ", "<<Q1?>>", "<<Q2?>>"] = true ∧
    (∃ f ∈ ["A ", "<<Q1?>>", "<<Q2?>>"],
      containsPair '<' f.data = true) ∧
    followupChunksOf (run_with_streaming true
      (["A ", "<<Q1?>>", "<<Q2?>>"].map fragEvent)) =
      [(extract_followup_questions
        (some (String.mk (concatChars ["A ", "<<Q1?>>", "<<Q2?>>"])))).2] :=
  ⟨by decide, by decide, (C2_roundtrip_amended _ (by decide) (by decide)).1⟩

/-- C3 (counterexample): the claim that an override beginning with `">>>"`
substitutes exactly the remainder after the marker as injected text is
false on the code: `get_system_prompt` injects `override_prompt[3:] + "\n"`,
so for the override `">>>Answer only in French.\n"` the resolved system
message differs from the default template with
`injected_prompt = "Answer only in French.\n"`. -/
theorem C3_counterexample :
    get_system_prompt (some ">>>Answer only in French.\n") "" ≠
      format_system_message_chat_conversation "Answer only in French.\n" "" := by
  intro h
  have hcond : (">>>Answer only in French.\n").data.take 3 =
      ['>', '>', '>'] := by decide
  have h1 : get_system_prompt (some ">>>Answer only in French.\n") "" =
      format_system_message_chat_conversation
        (String.mk ((">>>Answer only in French.\n").data.drop 3) ++ "\n") "" := by
    simp [get_system_prompt, hcond]
  rw [h1] at h
  have h2 := format_system_message_inj h
  have h3 : String.mk ((">>>Answer only in French.\n").data.drop 3) ++ "\n" ≠
      "Answer only in French.\n" := by decide
  exact h3 h2

/-- C3 (amended): for every override beginning with the three-character
continuation marker `">>>"`, `get_system_prompt` returns the default
system template with the injected-prompt placeholder replaced by the
remainder of the override after the marker followed by one extra newline;
in particular for `">>>Answer only in French.\n"` the injected text is
`"Answer only in French.\n\n"`. -/
theorem C3_continuation_amended (op fup : String)
    (h : op.data.take 3 = ['>', '>', '>']) :
    get_system_prompt (some op) fup =
      format_system_message_chat_conversation
        (String.mk (op.data.drop 3) ++ "\n") fup := by
  simp [get_system_prompt, h]

/-- C3 witness: the amended substitution rule applied to the concrete
override of the specification's scenario. -/
theorem C3_continuation_amended_witness :
    (">>>Answer only in French.\n").data.take 3 = ['>', '>', '>'] ∧
    get_system_prompt (some ">>>Answer only in French.\n") "" =
      format_system_message_chat_conversation
        (String.mk ((">>>Answer only in French.\n").data.drop 3) ++ "\n") "" :=
  ⟨by decide, C3_continuation_amended _ _ (by decide)⟩

/-- C4 (counterexample): the claim that the Query Extractor returns the
free text stripped of surrounding whitespace is false on the code: with no
tool invocation and content `"  refund policy  "` (whose stripped form
`"refund policy"` differs from the sentinel), `get_search_query` returns
the text unstripped. -/
theorem C4_counterexample :
    get_search_query ⟨some "  refund policy  ", []⟩ "original question" =
      "  refund policy  " ∧
    pyStrip "  refund policy  " = "refund policy" ∧
    pyStrip "  refund policy  " ≠ NO_RESPONSE ∧
    ("  refund policy  " : String) ≠ "refund policy" := by
  refine ⟨by decide, by decide, by decide, by decide⟩

/-- C4 (amended): for every query-generation completion with no tool
invocation and non-empty free text, the Query Extractor returns the free
text verbatim (unstripped) when its stripped form differs from the
sentinel `"0"`, and the original user query when the stripped form equals
the sentinel; stripping is used only for the sentinel comparison. -/
theorem C4_free_text_amended (c uq : String) (h : c ≠ "") :
    get_search_query ⟨some c, []⟩ uq =
      if pyStrip c ≠ NO_RESPONSE then c else uq := by
  simp [get_search_query, h]

/-- C4 witness: the amended free-text rule applied to concrete whitespace-
padded content. -/
theorem C4_free_text_amended_witness :
    ("  refund policy  " : String) ≠ "" ∧
    get_search_query ⟨some "  refund policy  ", []⟩ "original question" =
      if pyStrip "  refund policy  " ≠ NO_RESPONSE then "  refund policy  "
      else "original question" :=
  ⟨by decide, C4_free_text_amended _ _ (by decide)⟩

/-- C5 (confirmed): for every query-generation completion containing a
callable-function tool invocation named `"search_sources"` whose parsed
arguments carry a non-sentinel `search_query`, the Query Extractor returns
exactly the `search_query` argument of such an invocation, regardless of
the original user query. -/
theorem C5_tool_query (msg : ResponseMessage) (uq : String)
    (h : ∃ t ∈ msg.tool_calls, isSearchSourcesMatch t = true) :
    ∃ t ∈ msg.tool_calls, isSearchSourcesMatch t = true ∧
      get_search_query msg uq = argSearchQuery t.function.arguments ∧
      ∀ uq', get_search_query msg uq' = get_search_query msg uq := by
  obtain ⟨t, htm, htt, hfq⟩ := findSearchQuery_of_exists msg.tool_calls h
  have hne : msg.tool_calls ≠ [] := by
    intro hnil
    rw [hnil] at htm
    exact absurd htm (List.not_mem_nil t)
  refine ⟨t, htm, htt, ?_, ?_⟩
  · simp [get_search_query, hne, hfq]
  · intro uq'
    simp [get_search_query, hne, hfq]

/-- C5 witness: the confirmed extraction rule applied to a concrete
completion whose single tool call carries `search_query = "refund policy"`. -/
theorem C5_tool_query_witness :
    (∃ t ∈ (⟨some "free text",
        [⟨"function", ⟨"search_sources",
          [("search_query", "refund policy")]⟩⟩]⟩ :
        ResponseMessage).tool_calls, isSearchSourcesMatch t = true) ∧
    ∃ t ∈ (⟨some "free text",
        [⟨"function", ⟨"search_sources",
          [("search_query", "refund policy")]⟩⟩]⟩ :
        ResponseMessage).tool_calls, isSearchSourcesMatch t = true ∧
      get_search_query ⟨some "free text",
        [⟨"function", ⟨"search_sources",
          [("search_query", "refund policy")]⟩⟩]⟩ "original question" =
        argSearchQuery t.function.arguments ∧
      ∀ uq', get_search_query ⟨some "free text",
          [⟨"function", ⟨"search_sources",
            [("search_query", "refund policy")]⟩⟩]⟩ uq' =
        get_search_query ⟨some "free text",
          [⟨"function", ⟨"search_sources",
            [("search_query", "refund policy")]⟩⟩]⟩ "original question" :=
  ⟨by decide, C5_tool_query _ _ (by decide)⟩

/-- C6 (confirmed): for every content string that contains the opening
delimiter `"<<"` but no closing delimiter `">>"` anywhere, Follow-up
Extraction returns the content truncated at the first opening delimiter as
the visible content, together with an empty follow-up question list.  The
decomposition hypotheses pin `a` as the prefix strictly before the first
`"<<"` occurrence. -/
theorem C6_unclosed_delimiter (s : String) (a b : List Char)
    (hdecomp : s.data = a ++ '<' :: '<' :: b)
    (hfirst : containsPair '<' (a ++ ['<']) = false)
    (hnoclose : containsPair '>' s.data = false) :
    extract_followup_questions (some s) = (some (String.mk a), []) := by
  have h1 : splitBeforeDelim s.data = a := by
    rw [hdecomp]
    exact splitBeforeDelim_decomp a b hfirst
  have h2 : followupMatches s.data = [] :=
    followupMatches_nil_of_no_close s.data hnoclose
  simp [extract_followup_questions, h1, h2]

/-- C6 witness: the truncation rule applied to the concrete content
`"abc<<unfinished question"`. -/
theorem C6_unclosed_delimiter_witness :
    ("abc<<unfinished question").data =
      "abc".data ++ '<' :: '<' :: "unfinished question".data ∧
    containsPair '<' ("abc".data ++ ['<']) = false ∧
    containsPair '>' ("abc<<unfinished question").data = false ∧
    extract_followup_questions (some "abc<<unfinished question") =
      (some (String.mk "abc".data), []) :=
  ⟨by decide, by decide, by decide,
    C6_unclosed_delimiter "abc<<unfinished question" "abc".data
      "unfinished question".data (by decide) (by decide) (by decide)⟩

/-- C7 (confirmed): if the content of the last message of the history is
not a text string, `run_until_final_call` fails with the input error
before issuing any remote request: the trace of issued query-generation,
embedding and retrieval calls is empty (and the deferred answer call is
never built). -/
theorem C7_nontext_input_error (ms : List ChatMessage) (o : Overrides)
    (ext : Externals) (ss : Bool) (m : ChatMessage)
    (hlast : ms.getLast? = some m) (hnt : m.content = .nonText) :
    run_until_final_call ms o ext ss =
      (.error "The most recent message content must be a string.", []) := by
  simp [run_until_final_call, hlast, hnt]

/-- C7 witness: the input-error behavior at a concrete one-message history
with non-text content. -/
theorem C7_nontext_input_error_witness :
    ([⟨"user", .nonText⟩] : List ChatMessage).getLast? =
      some ⟨"user", .nonText⟩ ∧
    (⟨"user", .nonText⟩ : ChatMessage).content = .nonText ∧
    run_until_final_call [⟨"user", .nonText⟩] emptyOverrides
      ⟨⟨none, []⟩, [], none, [], ""⟩ false =
      (.error "The most recent message content must be a string.", []) :=
  ⟨rfl, rfl, C7_nontext_input_error _ _ _ _ _ rfl rfl⟩

/-- C8 (confirmed): with the empty overrides map, `run_until_final_call`
issues the query-generation request, one embedding request, and a
retrieval request with `top = 3`, text search and vector search both
enabled, the semantic ranker (and captions) disabled, zero score
thresholds, and the query derived by the Query Extractor from the
completion and the original user question. -/
theorem C8_default_retrieval_call (ms : List ChatMessage) (ext : Externals)
    (ss : Bool) (m : ChatMessage) (q : String)
    (hlast : ms.getLast? = some m) (htext : m.content = .text q) :
    (run_until_final_call ms emptyOverrides ext ss).2 =
      [RemoteCall.queryGen 0 100 none,
       RemoteCall.computeEmbedding (get_search_query ext.query_completion q),
       RemoteCall.search 3 (get_search_query ext.query_completion q)
         ext.filter [ext.embedding_vector] true true false false 0 0] := by
  simp [run_until_final_call, hlast, htext, emptyOverrides]

/-- C8 witness: the default-overrides retrieval call at the concrete
refund-policy scenario of the specification, with the tool call returning
`search_query = "refund policy"`. -/
theorem C8_default_retrieval_call_witness :
    ([⟨"user", .text "What is the refund policy?"⟩] :
      List ChatMessage).getLast? =
      some ⟨"user", .text "What is the refund policy?"⟩ ∧
    (⟨"user", .text "What is the refund policy?"⟩ :
      ChatMessage).content = .text "What is the refund policy?" ∧
    (run_until_final_call [⟨"user", .text "What is the refund policy?"⟩]
      emptyOverrides
      ⟨⟨none, [⟨"function", ⟨"search_sources",
        [("search_query", "refund policy")]⟩⟩]⟩, [1], none, [], ""⟩
      false).2 =
      [RemoteCall.queryGen 0 100 none,
       RemoteCall.computeEmbedding (get_search_query
         ⟨none, [⟨"function", ⟨"search_sources",
           [("search_query", "refund policy")]⟩⟩]⟩
         "What is the refund policy?"),
       RemoteCall.search 3 (get_search_query
         ⟨none, [⟨"function", ⟨"search_sources",
           [("search_query", "refund policy")]⟩⟩]⟩
         "What is the refund policy?")
         none [[1]] true true false false 0 0] :=
  ⟨rfl, rfl, C8_default_retrieval_call _ _ _ _ _ rfl rfl⟩

/-- C9 (confirmed): when the input content is `None`, Follow-up Extraction
returns `None` as the visible content and an empty follow-up question
list (total, no failure). -/
theorem C9_none_content :
    extract_followup_questions none = (none, []) := rfl

/-- C10 (confirmed): if the completion has at least one tool call but none
of them is a callable function named `"search_sources"` with a
non-sentinel `search_query`, the Query Extractor returns the original user
query, whatever the free-text content is (the `elif` arm is never
reached). -/
theorem C10_no_matching_tool (c : Option String) (tcs : List ToolCall)
    (uq : String) (hne : tcs ≠ [])
    (hall : ∀ t ∈ tcs, isSearchSourcesMatch t = false) :
    get_search_query ⟨c, tcs⟩ uq = uq := by
  have h := findSearchQuery_eq_none tcs hall
  simp [get_search_query, hne, h]

/-- C10 witness: the fallback applied to a concrete completion with one
non-matching tool call and free-text content present. -/
theorem C10_no_matching_tool_witness :
    (([⟨"function", ⟨"other_tool", [("search_query", "x")]⟩⟩] :
      List ToolCall) ≠ []) ∧
    (∀ t ∈ ([⟨"function", ⟨"other_tool", [("search_query", "x")]⟩⟩] :
      List ToolCall), isSearchSourcesMatch t = false) ∧
    get_search_query ⟨some "free text",
      [⟨"function", ⟨"other_tool", [("search_query", "x")]⟩⟩]⟩
      "original question" = "original question" :=
  ⟨by decide, by decide, C10_no_matching_tool _ _ _ (by decide) (by decide)⟩
